import Mathlib

/-!
Verification of the `hmd` deployment tool (Rust sources under `src/`)
against its natural-language specification.

The Rust code is shallowly embedded: pure string assembly becomes Lean
functions on `String`, process invocations become explicit invocation
values, exit statuses become `Nat` codes (success iff `0`), fallible
steps return `Except`, and the filesystem / process oracles are passed
in as explicit boolean functions.  Remote shell `;`-sequencing and the
compiled pipeline's `&&`/`||` chains get small executable semantics.
-/

namespace Hmd

/-- Rust `const HMD_ROOT: &str = "~/.hmd"` from `main.rs`. -/
def HMD_ROOT : String := "~/.hmd"

/-- Constant `Env::OUT_LOG`. -/
def OUT_LOG : String := "out.log"

/-- Constant `Env::PIPELINE_PID`. -/
def PIPELINE_PID : String := "pipeline.pid"

/-- Constant `Env::PIPELINE_SH`. -/
def PIPELINE_SH : String := "pipeline.sh"

/-- Constant `Env::STATUS_LOG`. -/
def STATUS_LOG : String := "status.log"

/-- The `Env` struct of `main.rs`: the remote layout derived from a
project name and an ssh address. -/
structure Env where
  project : String
  ssh_address : String
  project_dir : String
  git_dir : String
  work_tree : String
deriving DecidableEq, Repr

/-- Function `Env::new` from `main.rs`:
`project_dir = format!("{HMD_ROOT}/{project}")`,
`git_dir = format!("{project_dir}/git")`,
`work_tree = format!("{project_dir}/work-tree")`. -/
def Env.new (project ssh_address : String) : Env :=
  { project := project
    ssh_address := ssh_address
    project_dir := HMD_ROOT ++ "/" ++ project
    git_dir := HMD_ROOT ++ "/" ++ project ++ "/git"
    work_tree := HMD_ROOT ++ "/" ++ project ++ "/work-tree" }

/-- Method `Env::out_log`: `format!("{}/{}", self.work_tree, Self::OUT_LOG)`. -/
def Env.out_log (env : Env) : String := env.work_tree ++ "/" ++ OUT_LOG

/-- Method `Env::status_log`. -/
def Env.status_log (env : Env) : String := env.work_tree ++ "/" ++ STATUS_LOG

/-- Method `Env::pipeline_pid`. -/
def Env.pipeline_pid (env : Env) : String := env.work_tree ++ "/" ++ PIPELINE_PID

/-- Does the character list `s` start with the pattern `p`? -/
def hasPre : List Char → List Char → Bool
  | _, [] => true
  | [], _ :: _ => false
  | c :: s, d :: p => c = d && hasPre s p

/-- Does the character list `s` contain `p` as a contiguous sub-list? -/
def hasSub (s p : List Char) : Bool :=
  hasPre s p || match s with
    | [] => false
    | _ :: rest => hasSub rest p

/-- Model of Rust `str::replacen('~', "$HOME", 1)` on a character list:
replace the first `~`, if any, with `$HOME`. -/
def replace_tilde_home : List Char → List Char
  | [] => []
  | c :: rest =>
    if c = '~' then "$HOME".toList ++ rest
    else c :: replace_tilde_home rest

/-- String-level wrapper for [replace_tilde_home], modelling
`git_dir.replacen('~', "$HOME", 1)` in `run_pipeline`. -/
def home_expand (s : String) : String := ⟨replace_tilde_home s.toList⟩

/-- Function `kill_and_wait_cmd` from `main.rs`:
`format!("while pkill -SIGINT -P \x60cat {pipeline_pid}\x60 2>/dev/null; do sleep 1; done;")`. -/
def kill_and_wait_cmd (pipeline_pid : String) : String :=
  "while pkill -SIGINT -P `cat " ++ pipeline_pid ++ "` 2>/dev/null; do sleep 1; done;"

/-- Error values surfaced by driver actions (`io::Error` in the source,
collapsed to its constructors of interest). -/
inductive HmdErr
  | missingProject
  | missingAddress
  | processFailed (cmd : String)
  | launchFailed (program : String)
  | fsFailed (path : String)
deriving DecidableEq, Repr

/-- A spawned process: program plus argument list, as assembled by
`Cmd::new(..).arg(..)`/`args(..)` in the source. -/
structure Invocation where
  program : String
  args : List String
deriving DecidableEq, Repr

/-- Model of `exec_verbose` from `main.rs`: the observed status of the
spawned process is `none` when the process could not be launched
(`cmd.status()?` fails) and `some code` when it exited with `code`;
the invocation is successful iff the exit code is zero
(`status.success()`), any other outcome is an error. -/
def exec_verbose (status : Option Nat) : Except HmdErr Unit :=
  match status with
  | none => Except.error (HmdErr.launchFailed "spawn")
  | some code =>
    if code = 0 then Except.ok ()
    else Except.error (HmdErr.processFailed ("Process terminated with " ++ toString code))

/-- Accumulating helper for [split_whitespace]: walk the characters,
collecting the current token in reverse. -/
def splitWsAux : List Char → List Char → List String
  | [], acc => if acc = [] then [] else [⟨acc.reverse⟩]
  | c :: rest, acc =>
    if c.isWhitespace then
      if acc = [] then splitWsAux rest []
      else ⟨acc.reverse⟩ :: splitWsAux rest []
    else splitWsAux rest (c :: acc)

/-- Rust `str::split_whitespace`, as used by `run_verbose`: split on
runs of whitespace, yielding no empty tokens. -/
def split_whitespace (s : String) : List String :=
  splitWsAux s.toList []

/-- Function `run_verbose` from `main.rs` builds its invocation by splitting the
command line on whitespace: first token is the program, the rest are
arguments. -/
def run_verbose_inv (args : String) : Invocation :=
  match split_whitespace args with
  | [] => { program := "", args := [] }
  | p :: rest => { program := p, args := rest }

/-- Function `ssh` from `main.rs`: `Cmd::new("ssh")` with the address as first
argument, followed by the per-action arguments added by the caller. -/
def ssh_invocation (env : Env) (args : List String) : Invocation :=
  { program := "ssh", args := env.ssh_address :: args }

/-- The `scp` invocation of `upload`:
`scp.args(artifacts).arg(format!("{ssh_address}:{work_tree}"))`. -/
def scp_invocation (env : Env) (artifacts : List String) : Invocation :=
  { program := "scp", args := artifacts ++ [env.ssh_address ++ ":" ++ env.work_tree] }

/-- The checkout argument of `run_pipeline`:
`git --git-dir={git_dir} --work-tree=. checkout --force {branch};`
with `~` in `git_dir` expanded to `$HOME`. -/
def checkout_arg (env : Env) (branch : String) : String :=
  "git --git-dir=" ++ home_expand env.git_dir
    ++ " --work-tree=. checkout --force " ++ branch ++ ";"

/-- The launch argument of `run_pipeline`/`restart_pipeline`:
`nohup bash {pipeline_sh} > {out_log} 2>&1 & echo $! > {pipeline_pid};`. -/
def launch_arg : String :=
  "nohup bash " ++ PIPELINE_SH ++ " > " ++ OUT_LOG
    ++ " 2>&1 & echo $! > " ++ PIPELINE_PID ++ ";"

/-- The argument list of the single ssh session issued by
`run_pipeline` in `main.rs` (each `.arg(..)` call in order). -/
def run_pipeline_args (env : Env) (branch : String) : List String :=
  ["source .profile;",
   "cd " ++ env.work_tree ++ ";",
   kill_and_wait_cmd PIPELINE_PID,
   checkout_arg env branch,
   launch_arg]

/-- The argument list of the single ssh session issued by
`restart_pipeline` in `main.rs`. -/
def restart_pipeline_args (env : Env) : List String :=
  ["source .profile;",
   "cd " ++ env.work_tree ++ ";",
   kill_and_wait_cmd PIPELINE_PID,
   launch_arg]

/-- The one process invocation performed by `restart_pipeline`. -/
def restart_invocations (env : Env) : List Invocation :=
  [ssh_invocation env (restart_pipeline_args env)]

/-- The ssh argument built by `stop` in `main.rs`. -/
def stop_args (env : Env) : List String :=
  [kill_and_wait_cmd env.pipeline_pid]

/-- The ssh argument built by `status` in `main.rs`:
`format!("tail -f {}", env.status_log())`. -/
def status_arg (env : Env) : String := "tail -f " ++ env.status_log

/-- The ssh argument built by `log` in `main.rs`:
`format!("tail -n 50 -f {}", env.out_log())`. -/
def log_arg (env : Env) : String := "tail -n 50 -f " ++ env.out_log

/-- Semantics of a `;`-separated remote command sequence (ssh joins the
argument list with spaces and the remote shell executes the commands
sequentially): every command runs unconditionally and the session's
exit status is the status of the last command (`0` for an empty
sequence).  Returns (commands actually executed, session status). -/
def runSeq (exitCode : String → Nat) : List String → List String × Nat
  | [] => ([], 0)
  | [c] => ([c], exitCode c)
  | c :: c2 :: rest =>
    let r := runSeq exitCode (c2 :: rest)
    (c :: r.1, r.2)

/-- The `HmdYml` struct of `main.rs`: the local project descriptor.
`stages` is an insertion-ordered map (`IndexMap`), modelled as an
association list. -/
structure HmdYml where
  ssh_address : String
  project : String
  artifacts : List String
  stages : List (String × String)
deriving DecidableEq, Repr

/-- Rust `impl Default for HmdYml` from `main.rs`: empty project/address,
no artifacts, and the four default stages in order. -/
def HmdYml.default : HmdYml :=
  { ssh_address := ""
    project := ""
    artifacts := []
    stages := [("lint", "cargo clippy"),
               ("test", "cargo test"),
               ("build", "cargo build --release"),
               ("run", "cargo run --release")] }

/-- Function `read_hmd_yml` from `main.rs`, abstracted over the parse outcome of
the `hmd.yml` file: `file = none` models a missing or unparsable file,
`some y` a parsed descriptor.  A parsed descriptor with an empty
`project` field or no stages is rejected, so the result is `some`
exactly for present, loadable, validated descriptors. -/
def read_hmd_yml (file : Option HmdYml) : Option HmdYml :=
  match file with
  | none => none
  | some y =>
    if y.project = "" then none
    else if y.stages = [] then none
    else some y

/-- Function `write_hmd_yml` from `main.rs` (the descriptor it serializes):
`HmdYml { project, ssh_address, ..read_hmd_yml().unwrap_or_default() }`. -/
def write_hmd_yml (project ssh_address : String) (file : Option HmdYml) : HmdYml :=
  let base := (read_hmd_yml file).getD HmdYml.default
  { base with project := project, ssh_address := ssh_address }

/-- Function `get_project` from `main.rs`:
`project.or_else(|| Some(read_hmd_yml().ok()?.project)).ok_or(..)`. -/
def get_project (project : Option String) (file : Option HmdYml) : Except HmdErr String :=
  match project <|> (read_hmd_yml file).map HmdYml.project with
  | some p => Except.ok p
  | none => Except.error HmdErr.missingProject

/-- The lifecycle actions of `launch` that accept a project option. -/
inductive Action
  | init | stop | restart | status | log | remove
deriving DecidableEq, Repr

/-- Project resolution as performed per match arm in `launch`
(`main.rs`): Init adds a working-directory fallback after the
descriptor, Stop/Restart/Status/Log delegate to `get_project`, and
Remove uses only the explicit option
(`project.as_ref().ok_or(other_err(PROJECT_NOT_PROVIDED))`). -/
def resolve_project (action : Action) (project : Option String)
    (file : Option HmdYml) (cwd : Option String) : Except HmdErr String :=
  match action with
  | Action.init =>
    match project <|> (read_hmd_yml file).map HmdYml.project <|> cwd with
    | some p => Except.ok p
    | none => Except.error HmdErr.missingProject
  | Action.remove =>
    match project with
    | some p => Except.ok p
    | none => Except.error HmdErr.missingProject
  | _ => get_project project file

/-- The resolution order claimed by the specification for every
project-accepting action (including Remove): explicit override, then
loadable descriptor, then — for Init only — the working directory.
Stated from the spec's words, for comparison with [resolve_project]. -/
def resolve_project_spec (action : Action) (project : Option String)
    (file : Option HmdYml) (cwd : Option String) : Except HmdErr String :=
  match project <|> (read_hmd_yml file).map HmdYml.project
      <|> (if action = Action.init then cwd else none) with
  | some p => Except.ok p
  | none => Except.error HmdErr.missingProject

/-- Local git history: the commit list, newest first (`HEAD` is the
head of the list, the commit count its length). -/
structure Repo where
  commits : List String
deriving DecidableEq, Repr

/-- Effect of a successful `git commit` on the local history. -/
def commitEffect (msg : String) (r : Repo) : Repo :=
  { commits := msg :: r.commits }

/-- Effect of a successful `git reset HEAD~1` (mixed or `--soft`) on
the local history: drop the newest commit.  Neither variant touches
older commits, and the two variants differ only in index/work-tree
handling, which is not part of the history. -/
def resetHead1 (r : Repo) : Repo :=
  { commits := r.commits.tail }

/-- Command line issued by `git_commit_staged`. -/
def git_commit_staged_cmd : String := "git commit -m staged --allow-empty"

/-- First command line issued by `git_commit_unstaged`. -/
def git_add_cmd : String := "git add ."

/-- Second command line issued by `git_commit_unstaged`. -/
def git_commit_unstaged_cmd : String := "git commit -m unstaged --allow-empty"

/-- Command line issued by `git_push`:
`format!("git push --force {ssh_address}:{git_dir} HEAD")`. -/
def git_push_cmd (env : Env) : String :=
  "git push --force " ++ env.ssh_address ++ ":" ++ env.git_dir ++ " HEAD"

/-- Command line issued by `git_reset_unstaged`. -/
def git_reset_unstaged_cmd : String := "git reset HEAD~1"

/-- Command line issued by `git_reset_staged`. -/
def git_reset_staged_cmd : String := "git reset HEAD~1 --soft"

/-- Function `git_push_dirty` from `main.rs`, with `ok` giving the exit
outcome of each `run_verbose` command (`true` iff exit status zero).
Mirrors the source exactly: commit staged, commit unstaged (add +
commit), latch the push result, reset mixed, reset soft, then re-raise
the latched push result; every failing command short-circuits via `?`.
Returns (commands attempted in order, final local history, result). -/
def git_push_dirty (ok : String → Bool) (env : Env) (r0 : Repo) :
    List String × Repo × Except HmdErr Unit :=
  if ok git_commit_staged_cmd then
    let r1 := commitEffect "staged" r0
    if ok git_add_cmd then
      if ok git_commit_unstaged_cmd then
        let r2 := commitEffect "unstaged" r1
        let push_result : Except HmdErr Unit :=
          if ok (git_push_cmd env) then Except.ok ()
          else Except.error (HmdErr.processFailed (git_push_cmd env))
        if ok git_reset_unstaged_cmd then
          let r3 := resetHead1 r2
          if ok git_reset_staged_cmd then
            let r4 := resetHead1 r3
            ([git_commit_staged_cmd, git_add_cmd, git_commit_unstaged_cmd,
              git_push_cmd env, git_reset_unstaged_cmd, git_reset_staged_cmd],
             r4, push_result)
          else
            ([git_commit_staged_cmd, git_add_cmd, git_commit_unstaged_cmd,
              git_push_cmd env, git_reset_unstaged_cmd],
             r3, Except.error (HmdErr.processFailed git_reset_staged_cmd))
        else
          ([git_commit_staged_cmd, git_add_cmd, git_commit_unstaged_cmd,
            git_push_cmd env],
           r2, Except.error (HmdErr.processFailed git_reset_unstaged_cmd))
      else
        ([git_commit_staged_cmd, git_add_cmd],
         r1, Except.error (HmdErr.processFailed git_commit_unstaged_cmd))
    else
      ([git_commit_staged_cmd, git_add_cmd],
       r1, Except.error (HmdErr.processFailed git_add_cmd))
  else
    ([git_commit_staged_cmd], r0,
     Except.error (HmdErr.processFailed git_commit_staged_cmd))

/-- One guarded stage block emitted by `stage_commands` in `main.rs`,
reproducing the raw format string byte for byte (the `\n` sequences
inside the shell `echo` arguments are literal backslash-n). -/
def stage_command (i : Nat) (stage cmd : String) : String :=
  "\n          echo -e \"\\n🟩 [`date +%FT%T`] > Start " ++ stage
    ++ "\\n" ++ cmd ++ "\\n\";\n          run " ++ toString i
    ++ " && " ++ cmd ++ " && complete " ++ toString i
    ++ " || \x7b\n            echo -e \"\\n❌ [`date +%FT%T`] > Failed "
    ++ stage ++ "\\n\";\n            panic " ++ toString i
    ++ ";\n            exit 1;\n          \x7d;\n          echo -e \"\\n🟩 [`date +%FT%T`] > End "
    ++ stage ++ "\\n\";\n        "

/-- Function `stage_commands` from `main.rs`: one guarded block per
stage, enumerated in input order. -/
def stage_commands (stages : List (String × String)) : List String :=
  stages.enum.map fun p => stage_command p.1 p.2.1 p.2.2

/-- Function `generate_pipeline_sh` from `main.rs`, returning the script
text it writes to `pipeline.sh`:
`format!("{SCRIPT}\n\nstages=({stages});\n\n{pipeline}")` where
`SCRIPT` is the runtime preamble `script.sh` (passed in as `script`:
that file is not part of the claims, only its hook names are). -/
def generate_pipeline_sh (script : String) (stages : List (String × String)) : String :=
  script ++ "\n\nstages=("
    ++ String.intercalate " " (stages.map Prod.fst)
    ++ ");\n\n"
    ++ String.intercalate "\n\n" (stage_commands stages)

/-- Observable events of a pipeline run: invocation of the `run`,
`complete` and `panic` runtime hooks and of the stage's own command,
each tagged with the stage index. -/
inductive Ev
  | run (i : Nat)
  | cmd (i : Nat)
  | complete (i : Nat)
  | panic (i : Nat)
deriving DecidableEq, Repr

/-- The stage index an event is tagged with. -/
def Ev.idx : Ev → Nat
  | Ev.run i => i
  | Ev.cmd i => i
  | Ev.complete i => i
  | Ev.panic i => i

/-- Shell semantics of one compiled stage block
`run i && cmd && complete i || { ..; panic i; exit 1; }`:
`rOk i`, `cOk i`, `compOk i` give the exit outcomes of the `run i`
hook, the stage command, and the `complete i` hook.  Returns the
events in invocation order and whether the block fell through to the
next stage (`true`) or took the failure branch (`false`). -/
def execBlock (rOk cOk compOk : Nat → Bool) (i : Nat) : List Ev × Bool :=
  if rOk i then
    if cOk i then
      if compOk i then ([Ev.run i, Ev.cmd i, Ev.complete i], true)
      else ([Ev.run i, Ev.cmd i, Ev.complete i, Ev.panic i], false)
    else ([Ev.run i, Ev.cmd i, Ev.panic i], false)
  else ([Ev.run i, Ev.panic i], false)

/-- Run the blocks for stage indices `i, i+1, …, i+n-1` in order: a
block whose guard chain fails executes `exit 1`, ending the script
with status `1`; if every block succeeds the script ends with
status `0`.  Returns (event trace, script exit status). -/
def execFrom (rOk cOk compOk : Nat → Bool) : Nat → Nat → List Ev × Nat
  | _, 0 => ([], 0)
  | i, n + 1 =>
    let b := execBlock rOk cOk compOk i
    if b.2 then
      let rest := execFrom rOk cOk compOk (i + 1) n
      (b.1 ++ rest.1, rest.2)
    else (b.1, 1)

/-- Execution of the whole compiled pipeline over its stage list. -/
def execPipeline (rOk cOk compOk : Nat → Bool) (stages : List (String × String)) :
    List Ev × Nat :=
  execFrom rOk cOk compOk 0 stages.length

/-- Semantics of the `kill_and_wait_cmd` polling loop
`while pkill -SIGINT -P .. ; do sleep 1; done;` — `matched k` tells
whether the `k`-th `pkill` attempt signalled at least one child
(exit status zero).  `kill_wait_loop fuel k` returns `some a` when the
loop terminates within `fuel` further iterations, where `a` is the
total number of `pkill` attempts made (`k` of them before this call);
`none` means the fuel ran out. -/
def kill_wait_loop (matched : Nat → Bool) : Nat → Nat → Option Nat
  | 0, _ => none
  | fuel + 1, k =>
    if matched k then kill_wait_loop matched fuel (k + 1)
    else some (k + 1)

/-- One step of a driver action: a process invocation run through
`exec_verbose`, or a local filesystem operation. -/
inductive DStep
  | inv (i : Invocation)
  | fsWrite (path : String)
  | fsRemove (path : String)
deriving DecidableEq, Repr

/-- The error a failing step surfaces. -/
def stepErr : DStep → HmdErr
  | DStep.inv i => HmdErr.processFailed i.program
  | DStep.fsWrite p => HmdErr.fsFailed p
  | DStep.fsRemove p => HmdErr.fsFailed p

/-- Function `deploy` from `main.rs` with `dirty = false`, as the
sequence of effectful steps it attempts: push, write `pipeline.sh`,
upload it with the declared artifacts, delete the local copy, then the
single ssh session of `run_pipeline`.  `ok` gives each step's outcome;
the first failing step aborts the action (`?` propagation), so later
steps are never attempted.  The branch name is the captured output of
`git branch --show-current` (`git_branch`, whose exit status the
source does not inspect).  Returns (steps attempted, result). -/
def deploy (ok : DStep → Bool) (env : Env) (hmd : HmdYml) (branch : String) :
    List DStep × Except HmdErr Unit :=
  let s1 := DStep.inv (run_verbose_inv (git_push_cmd env))
  if ok s1 then
    let s2 := DStep.fsWrite PIPELINE_SH
    if ok s2 then
      let s3 := DStep.inv (scp_invocation env (hmd.artifacts ++ [PIPELINE_SH]))
      if ok s3 then
        let s4 := DStep.fsRemove PIPELINE_SH
        if ok s4 then
          let s5 := DStep.inv (ssh_invocation env (run_pipeline_args env branch))
          if ok s5 then ([s1, s2, s3, s4, s5], Except.ok ())
          else ([s1, s2, s3, s4, s5], Except.error (stepErr s5))
        else ([s1, s2, s3, s4], Except.error (stepErr s4))
      else ([s1, s2, s3], Except.error (stepErr s3))
    else ([s1, s2], Except.error (stepErr s2))
  else ([s1], Except.error (stepErr s1))

/-- The compiled-pipeline contract of the specification, for a stage
list and the exit outcomes of the hooks and stage commands: the script
text has one guarded block per stage at its input position; a failed
`run` hook skips the stage command, a failed stage command skips the
`complete` hook; a reached stage whose chain failed gets its `panic`
hook invoked, the script exits `1` and no later stage command runs;
and stage `i+1`'s command only ever runs after stage `i`'s `complete`
hook was invoked. -/
def pipelineChainProp (rOk cOk compOk : Nat → Bool)
    (stages : List (String × String)) : Prop :=
  ((stage_commands stages).length = stages.length
    ∧ ∀ i, i < stages.length →
        (stage_commands stages).getD i "" =
          stage_command i (stages.getD i ("", "")).1 (stages.getD i ("", "")).2)
  ∧ (∀ i, rOk i = false → Ev.cmd i ∉ (execPipeline rOk cOk compOk stages).1)
  ∧ (∀ i, cOk i = false → Ev.complete i ∉ (execPipeline rOk cOk compOk stages).1)
  ∧ (∀ i, Ev.run i ∈ (execPipeline rOk cOk compOk stages).1 →
      (execBlock rOk cOk compOk i).2 = false →
      Ev.panic i ∈ (execPipeline rOk cOk compOk stages).1 ∧
        (execPipeline rOk cOk compOk stages).2 = 1 ∧
        ∀ j, i < j → Ev.cmd j ∉ (execPipeline rOk cOk compOk stages).1)
  ∧ (∀ i, Ev.cmd (i + 1) ∈ (execPipeline rOk cOk compOk stages).1 →
      Ev.complete i ∈ (execPipeline rOk cOk compOk stages).1)

/-- A concrete layout used by the closed counterexamples and witnesses. -/
def demoEnv : Env := Env.new "demo" "me@host"

/-- A concrete loadable descriptor with project `foo`. -/
def fooYml : HmdYml :=
  { ssh_address := "me@host"
    project := "foo"
    artifacts := []
    stages := [("build", "make")] }

/-- A concrete local history with a single commit. -/
def demoRepo : Repo := { commits := ["init"] }

/-- An exit-status assignment under which exactly the checkout command
of the deploy session fails. -/
def checkoutFails : String → Nat :=
  fun c => if c = checkout_arg demoEnv "main" then 1 else 0

/-- Oracle: every attempt fails / nothing matches. -/
def allFalse : Nat → Bool := fun _ => false

/-- Oracle: every attempt succeeds. -/
def allTrue : Nat → Bool := fun _ => true

/-- Command oracle: every git command succeeds except the push to the
demo remote. -/
def pushFails : String → Bool := fun cmdStr => cmdStr != git_push_cmd demoEnv

/-- Command oracle: every git command succeeds. -/
def allCmdsOk : String → Bool := fun _ => true

/-- Step oracle: every deploy step succeeds except the initial push. -/
def pushStepFails : DStep → Bool :=
  fun s => s != DStep.inv (run_verbose_inv (git_push_cmd demoEnv))

/-! ### Helper lemmas about the pipeline block semantics -/

/-- The guard chain of a block falls through iff the `run` hook, the
stage command and the `complete` hook all exited zero. -/
theorem execBlock_snd (r c p : Nat → Bool) (i : Nat) :
    (execBlock r c p i).2 = (r i && c i && p i) := by
  cases hr : r i <;> cases hc : c i <;> cases hp : p i <;>
    simp [execBlock, hr, hc, hp]

/-- The `run` hook of stage `j` is invoked in block `i` iff `j = i`. -/
theorem run_mem_execBlock (r c p : Nat → Bool) (i j : Nat) :
    Ev.run j ∈ (execBlock r c p i).1 ↔ j = i := by
  cases hr : r i <;> cases hc : c i <;> cases hp : p i <;>
    simp [execBlock, hr, hc, hp]

/-- The command of stage `j` is invoked in block `i` iff `j = i` and
the `run` hook succeeded. -/
theorem cmd_mem_execBlock (r c p : Nat → Bool) (i j : Nat) :
    Ev.cmd j ∈ (execBlock r c p i).1 ↔ (j = i ∧ r i = true) := by
  cases hr : r i <;> cases hc : c i <;> cases hp : p i <;>
    simp [execBlock, hr, hc, hp]

/-- The `complete` hook of stage `j` is invoked in block `i` iff
`j = i` and both the `run` hook and the stage command succeeded. -/
theorem complete_mem_execBlock (r c p : Nat → Bool) (i j : Nat) :
    Ev.complete j ∈ (execBlock r c p i).1 ↔ (j = i ∧ r i = true ∧ c i = true) := by
  cases hr : r i <;> cases hc : c i <;> cases hp : p i <;>
    simp [execBlock, hr, hc, hp]

/-- The `panic` hook of stage `j` is invoked in block `i` iff `j = i`
and the guard chain failed. -/
theorem panic_mem_execBlock (r c p : Nat → Bool) (i j : Nat) :
    Ev.panic j ∈ (execBlock r c p i).1 ↔ (j = i ∧ (execBlock r c p i).2 = false) := by
  cases hr : r i <;> cases hc : c i <;> cases hp : p i <;>
    simp [execBlock, hr, hc, hp]

/-- A stage command invoked by the script run has index at least the
start index and its `run` hook succeeded. -/
theorem cmd_mem_execFrom (r c p : Nat → Bool) :
    ∀ n i j, Ev.cmd j ∈ (execFrom r c p i n).1 → i ≤ j ∧ r j = true := by
  intro n
  induction n with
  | zero => intro i j h; simp [execFrom] at h
  | succ n ih =>
    intro i j h
    cases hb : (execBlock r c p i).2 with
    | true =>
      simp [execFrom, hb] at h
      rcases h with h1 | h2
      · rcases (cmd_mem_execBlock r c p i j).mp h1 with ⟨rfl, hr⟩
        exact ⟨Nat.le_refl j, hr⟩
      · rcases ih (i + 1) j h2 with ⟨hle, hr⟩
        exact ⟨Nat.le_trans (Nat.le_succ i) hle, hr⟩
    | false =>
      simp [execFrom, hb] at h
      rcases (cmd_mem_execBlock r c p i j).mp h with ⟨rfl, hr⟩
      exact ⟨Nat.le_refl j, hr⟩

/-- A `run` hook invoked by the script run has index at least the
start index. -/
theorem run_mem_execFrom (r c p : Nat → Bool) :
    ∀ n i j, Ev.run j ∈ (execFrom r c p i n).1 → i ≤ j := by
  intro n
  induction n with
  | zero => intro i j h; simp [execFrom] at h
  | succ n ih =>
    intro i j h
    cases hb : (execBlock r c p i).2 with
    | true =>
      simp [execFrom, hb] at h
      rcases h with h1 | h2
      · exact ((run_mem_execBlock r c p i j).mp h1) ▸ Nat.le_refl i
      · exact Nat.le_trans (Nat.le_succ i) (ih (i + 1) j h2)
    | false =>
      simp [execFrom, hb] at h
      exact ((run_mem_execBlock r c p i j).mp h) ▸ Nat.le_refl i

/-- A `complete` hook invoked by the script run had a successful `run`
hook and a successful stage command at the same index. -/
theorem complete_mem_execFrom (r c p : Nat → Bool) :
    ∀ n i j, Ev.complete j ∈ (execFrom r c p i n).1 →
      i ≤ j ∧ r j = true ∧ c j = true := by
  intro n
  induction n with
  | zero => intro i j h; simp [execFrom] at h
  | succ n ih =>
    intro i j h
    cases hb : (execBlock r c p i).2 with
    | true =>
      simp [execFrom, hb] at h
      rcases h with h1 | h2
      · rcases (complete_mem_execBlock r c p i j).mp h1 with ⟨rfl, hr, hc⟩
        exact ⟨Nat.le_refl j, hr, hc⟩
      · rcases ih (i + 1) j h2 with ⟨hle, hr, hc⟩
        exact ⟨Nat.le_trans (Nat.le_succ i) hle, hr, hc⟩
    | false =>
      simp [execFrom, hb] at h
      rcases (complete_mem_execBlock r c p i j).mp h with ⟨rfl, hr, hc⟩
      exact ⟨Nat.le_refl j, hr, hc⟩

/-- If the command of stage `j` was invoked then the `complete` hook of
every earlier stage from the start index on was invoked. -/
theorem complete_of_cmd_execFrom (r c p : Nat → Bool) :
    ∀ n i j, Ev.cmd j ∈ (execFrom r c p i n).1 →
      ∀ k, i ≤ k → k < j → Ev.complete k ∈ (execFrom r c p i n).1 := by
  intro n
  induction n with
  | zero => intro i j h; simp [execFrom] at h
  | succ n ih =>
    intro i j h k hik hkj
    cases hb : (execBlock r c p i).2 with
    | true =>
      simp only [execFrom, hb, if_true] at h ⊢
      rcases List.mem_append.mp h with h1 | h2
      · rcases (cmd_mem_execBlock r c p i j).mp h1 with ⟨heq, _⟩
        exact absurd hkj (by omega)
      · rcases Nat.eq_or_lt_of_le hik with heq | hik1
        · have hall : r i = true ∧ c i = true := by
            have hsnd := execBlock_snd r c p i
            rw [hb] at hsnd
            refine ⟨?_, ?_⟩
            · cases hrk : r i <;> simp [hrk] at hsnd ⊢
            · cases hck : c i <;> simp [hck] at hsnd ⊢
          apply List.mem_append.mpr
          exact Or.inl ((complete_mem_execBlock r c p i k).mpr ⟨heq.symm, hall.1, hall.2⟩)
        · apply List.mem_append.mpr
          exact Or.inr (ih (i + 1) j h2 k hik1 hkj)
    | false =>
      simp only [execFrom, hb, if_false] at h ⊢
      rcases (cmd_mem_execBlock r c p i j).mp h with ⟨heq, _⟩
      exact absurd hkj (by omega)

/-- If a reached stage's guard chain failed, the script invoked that
stage's `panic` hook, exited with status `1`, and invoked no later
stage's command. -/
theorem fail_execFrom (r c p : Nat → Bool) :
    ∀ n i j, Ev.run j ∈ (execFrom r c p i n).1 →
      (execBlock r c p j).2 = false →
      Ev.panic j ∈ (execFrom r c p i n).1 ∧ (execFrom r c p i n).2 = 1 ∧
        ∀ m, j < m → Ev.cmd m ∉ (execFrom r c p i n).1 := by
  intro n
  induction n with
  | zero => intro i j h; simp [execFrom] at h
  | succ n ih =>
    intro i j h hfail
    cases hb : (execBlock r c p i).2 with
    | true =>
      simp only [execFrom, hb, if_true] at h ⊢
      rcases List.mem_append.mp h with h1 | h2
      · have hji := (run_mem_execBlock r c p i j).mp h1
        rw [hji] at hfail
        rw [hfail] at hb
        cases hb
      · rcases ih (i + 1) j h2 hfail with ⟨hp1, hcode, hnone⟩
        have hij1 : i + 1 ≤ j := run_mem_execFrom r c p n (i + 1) j h2
        refine ⟨List.mem_append.mpr (Or.inr hp1), hcode, ?_⟩
        intro m hm hmem
        rcases List.mem_append.mp hmem with hm1 | hm2
        · rcases (cmd_mem_execBlock r c p i m).mp hm1 with ⟨heq, _⟩
          omega
        · exact hnone m hm hm2
    | false =>
      simp only [execFrom, hb, if_false] at h ⊢
      have hji := (run_mem_execBlock r c p i j).mp h
      subst hji
      refine ⟨(panic_mem_execBlock r c p j j).mpr ⟨rfl, hb⟩, rfl, ?_⟩
      intro m hm hmem
      rcases (cmd_mem_execBlock r c p j m).mp hmem with ⟨heq, _⟩
      omega

/-! ### C1 — compiled pipeline structure and short-circuit chain -/

/-- C1: for every non-empty ordered stage list the compiled pipeline
script contains one guarded block per stage at its input position, and
the blocks chain the `run` hook, the stage command and the `complete`
hook with short-circuit AND semantics: a failed `run` skips the
command, a failed command skips `complete`, any failure invokes
`panic` and exits the script with status `1`, and stage `i+1`'s
command never runs unless stage `i`'s `complete` hook was invoked. -/
theorem c1_pipeline_blocks_and_chain (rOk cOk compOk : Nat → Bool)
    (stages : List (String × String)) (_hne : stages ≠ []) :
    pipelineChainProp rOk cOk compOk stages := by
  unfold pipelineChainProp
  simp only [execPipeline]
  refine ⟨⟨?_, ?_⟩, ?_, ?_, ?_, ?_⟩
  · simp [stage_commands]
  · intro i hi
    have hlen : (stage_commands stages).length = stages.length := by
      simp [stage_commands]
    have hi2 : i < (stage_commands stages).length := by
      rw [hlen]; exact hi
    rw [List.getD_eq_getElem _ _ hi2, List.getD_eq_getElem _ _ hi]
    simp [stage_commands]
  · intro i hri hmem
    have h := cmd_mem_execFrom rOk cOk compOk stages.length 0 i hmem
    rw [hri] at h
    exact Bool.false_ne_true h.2
  · intro i hci hmem
    have h := complete_mem_execFrom rOk cOk compOk stages.length 0 i hmem
    rw [hci] at h
    exact Bool.false_ne_true h.2.2
  · intro i hrun hfail
    exact fail_execFrom rOk cOk compOk stages.length 0 i hrun hfail
  · intro i hmem
    exact complete_of_cmd_execFrom rOk cOk compOk stages.length 0 (i + 1) hmem i
      (Nat.zero_le i) (Nat.lt_succ_self i)

/-- Witness for C1: the contract instantiated at the one-stage list
`build ↦ make` with every hook and command succeeding. -/
theorem c1_pipeline_blocks_and_chain_witness :
    pipelineChainProp allTrue allTrue allTrue [("build", "make")] :=
  c1_pipeline_blocks_and_chain allTrue allTrue allTrue [("build", "make")] (by decide)


/-! ### C5 — kill-and-wait loop -/

/-- If the `pkill` attempt at counter `k` matches nothing, the loop
stops right after that one attempt. -/
theorem kill_wait_loop_stops (matched : Nat → Bool) (fuel k : Nat)
    (hm : matched k = false) (hf : 0 < fuel) :
    kill_wait_loop matched fuel k = some (k + 1) := by
  cases fuel with
  | zero => omega
  | succ f => simp [kill_wait_loop, hm]

/-- General attempt count: if the first non-matching `pkill` attempt
after counter `k` is attempt `k + j`, the loop makes exactly `j + 1`
further attempts. -/
theorem kill_wait_loop_attempts (matched : Nat → Bool) :
    ∀ j fuel k, (∀ m, m < j → matched (k + m) = true) →
      matched (k + j) = false → j < fuel →
      kill_wait_loop matched fuel k = some (k + j + 1) := by
  intro j
  induction j with
  | zero =>
    intro fuel k _ hj hf
    exact kill_wait_loop_stops matched fuel k hj hf
  | succ j ih =>
    intro fuel k hall hj hf
    cases fuel with
    | zero => omega
    | succ f =>
      have h0 : matched k = true := by
        have := hall 0 (Nat.succ_pos j)
        simpa using this
      have hall2 : ∀ m, m < j → matched (k + 1 + m) = true := by
        intro m hm
        have := hall (m + 1) (by omega)
        rw [show k + 1 + m = k + (m + 1) by omega]
        exact this
      have hj2 : matched (k + 1 + j) = false := by
        rw [show k + 1 + j = k + (j + 1) by omega]
        exact hj
      have := ih f (k + 1) hall2 hj2 (by omega)
      rw [show k + (j + 1) + 1 = k + 1 + j + 1 by omega]
      simpa [kill_wait_loop, h0] using this

/-- C5: the kill-and-wait loop signals the recorded pid's children and
repeats, sleeping between attempts, until an attempt signals nothing;
when the pid has no children the loop makes exactly one `pkill`
attempt (so it is safe with no live process and idempotent), and the
`stop` action issues exactly this loop over the project's pid file. -/
theorem c5_kill_and_wait (matched : Nat → Bool) (fuel j : Nat)
    (hfirst : ∀ m, m < j → matched m = true) (hj : matched j = false)
    (hfuel : j < fuel) :
    kill_wait_loop matched fuel 0 = some (j + 1) ∧
    (matched 0 = false → kill_wait_loop matched fuel 0 = some 1) ∧
    (∀ p s : String, stop_args (Env.new p s) =
      [kill_and_wait_cmd (HMD_ROOT ++ "/" ++ p ++ "/work-tree" ++ "/" ++ PIPELINE_PID)]) := by
  refine ⟨?_, ?_, ?_⟩
  · have h := kill_wait_loop_attempts matched j fuel 0
      (by intro m hm; simpa using hfirst m hm) (by simpa using hj) hfuel
    simpa using h
  · intro h0
    exact kill_wait_loop_stops matched fuel 0 h0 (by omega)
  · intro p s
    rfl

/-- Witness for C5: a pid with no children, three units of fuel: the
loop stops after exactly one attempt. -/
theorem c5_kill_and_wait_witness :
    kill_wait_loop allFalse 3 0 = some 1 ∧
    (allFalse 0 = false → kill_wait_loop allFalse 3 0 = some 1) ∧
    (∀ p s : String, stop_args (Env.new p s) =
      [kill_and_wait_cmd (HMD_ROOT ++ "/" ++ p ++ "/work-tree" ++ "/" ++ PIPELINE_PID)]) :=
  c5_kill_and_wait allFalse 3 0
    (by intro m hm; exact absurd hm (Nat.not_lt_zero m)) rfl (by decide)

/-! ### C3 and C10 — dirty deploy -/

/-- C3: a dirty deploy unwinds both synthetic commits regardless of
the push outcome, latches the push result and re-raises it only after
the history restoration, so after a failed push the local history is
exactly the original one and the reported error is the push failure. -/
theorem c3_dirty_push_unwind (ok : String → Bool) (env : Env) (r0 : Repo)
    (hcs : ok git_commit_staged_cmd = true) (hga : ok git_add_cmd = true)
    (hcu : ok git_commit_unstaged_cmd = true)
    (hru : ok git_reset_unstaged_cmd = true)
    (hrs : ok git_reset_staged_cmd = true) :
    (git_push_dirty ok env r0).2.1 = r0 ∧
    git_reset_unstaged_cmd ∈ (git_push_dirty ok env r0).1 ∧
    git_reset_staged_cmd ∈ (git_push_dirty ok env r0).1 ∧
    (ok (git_push_cmd env) = false →
      (git_push_dirty ok env r0).2.2 =
        Except.error (HmdErr.processFailed (git_push_cmd env))) ∧
    (ok (git_push_cmd env) = true →
      (git_push_dirty ok env r0).2.2 = Except.ok ()) := by
  refine ⟨?_, ?_, ?_, ?_, ?_⟩
  · simp [git_push_dirty, hcs, hga, hcu, hru, hrs, commitEffect, resetHead1]
  · simp [git_push_dirty, hcs, hga, hcu, hru, hrs]
  · simp [git_push_dirty, hcs, hga, hcu, hru, hrs]
  · intro hp
    simp [git_push_dirty, hcs, hga, hcu, hru, hrs, hp]
  · intro hp
    simp [git_push_dirty, hcs, hga, hcu, hru, hrs, hp]

/-- Witness for C3: a demo repository, every local git command
succeeding, the push to the demo remote failing. -/
theorem c3_dirty_push_unwind_witness :
    (git_push_dirty pushFails demoEnv demoRepo).2.1 = demoRepo ∧
    git_reset_unstaged_cmd ∈ (git_push_dirty pushFails demoEnv demoRepo).1 ∧
    git_reset_staged_cmd ∈ (git_push_dirty pushFails demoEnv demoRepo).1 ∧
    (pushFails (git_push_cmd demoEnv) = false →
      (git_push_dirty pushFails demoEnv demoRepo).2.2 =
        Except.error (HmdErr.processFailed (git_push_cmd demoEnv))) ∧
    (pushFails (git_push_cmd demoEnv) = true →
      (git_push_dirty pushFails demoEnv demoRepo).2.2 = Except.ok ()) :=
  c3_dirty_push_unwind pushFails demoEnv demoRepo
    (by decide) (by decide) (by decide) (by decide) (by decide)

/-- C10: a dirty deploy always attempts exactly the six git commands
in order — two `--allow-empty` commits (staged, then add + unstaged)
before the push, then a mixed `HEAD~1` reset followed by a soft
`HEAD~1` reset — and two commits followed by two resets restore the
original history, so the commits unwound equal the commits created. -/
theorem c10_dirty_commit_balance (ok : String → Bool) (env : Env) (r0 : Repo)
    (hcs : ok git_commit_staged_cmd = true) (hga : ok git_add_cmd = true)
    (hcu : ok git_commit_unstaged_cmd = true)
    (hru : ok git_reset_unstaged_cmd = true)
    (hrs : ok git_reset_staged_cmd = true) :
    (git_push_dirty ok env r0).1 =
      [git_commit_staged_cmd, git_add_cmd, git_commit_unstaged_cmd,
       git_push_cmd env, git_reset_unstaged_cmd, git_reset_staged_cmd] ∧
    hasSub git_commit_staged_cmd.toList "--allow-empty".toList = true ∧
    hasSub git_commit_unstaged_cmd.toList "--allow-empty".toList = true ∧
    git_reset_unstaged_cmd = "git reset HEAD~1" ∧
    git_reset_staged_cmd = "git reset HEAD~1 --soft" ∧
    commitEffect "unstaged" (commitEffect "staged" r0) =
      { commits := "unstaged" :: "staged" :: r0.commits } ∧
    resetHead1 (resetHead1 (commitEffect "unstaged" (commitEffect "staged" r0))) = r0 := by
  refine ⟨?_, by decide, by decide, rfl, rfl, rfl, ?_⟩
  · simp [git_push_dirty, hcs, hga, hcu, hru, hrs]
  · simp [commitEffect, resetHead1]

/-- Witness for C10: demo repository, all git commands succeeding. -/
theorem c10_dirty_commit_balance_witness :
    (git_push_dirty allCmdsOk demoEnv demoRepo).1 =
      [git_commit_staged_cmd, git_add_cmd, git_commit_unstaged_cmd,
       git_push_cmd demoEnv, git_reset_unstaged_cmd, git_reset_staged_cmd] ∧
    hasSub git_commit_staged_cmd.toList "--allow-empty".toList = true ∧
    hasSub git_commit_unstaged_cmd.toList "--allow-empty".toList = true ∧
    git_reset_unstaged_cmd = "git reset HEAD~1" ∧
    git_reset_staged_cmd = "git reset HEAD~1 --soft" ∧
    commitEffect "unstaged" (commitEffect "staged" demoRepo) =
      { commits := "unstaged" :: "staged" :: demoRepo.commits } ∧
    resetHead1 (resetHead1 (commitEffect "unstaged" (commitEffect "staged" demoRepo))) = demoRepo :=
  c10_dirty_commit_balance allCmdsOk demoEnv demoRepo rfl rfl rfl rfl rfl


/-! ### C2 — exit-code contract and the remote session -/

/-- C2 counterexample: with every command succeeding except the
checkout of the deploy session, the remote session still executes all
five `;`-separated commands — in particular the launch command, which
records the pid — and the session itself even exits `0`, because its
status is that of its last command. -/
theorem c2_checkout_counterexample :
    checkoutFails (checkout_arg demoEnv "main") = 1 ∧
    (runSeq checkoutFails (run_pipeline_args demoEnv "main")).1 =
      run_pipeline_args demoEnv "main" ∧
    launch_arg ∈ (runSeq checkoutFails (run_pipeline_args demoEnv "main")).1 ∧
    hasSub launch_arg.toList ("echo $! > " ++ PIPELINE_PID).toList = true ∧
    (runSeq checkoutFails (run_pipeline_args demoEnv "main")).2 = 0 := by
  decide

/-- C2 (amended): each process invocation run through `exec_verbose`
succeeds iff it exits `0`, and a failed push aborts the deploy action
before any later step (no upload, no remote session, hence no pid);
however the checkout and the launch are commands of one `;`-joined
remote session, so every command of that session runs regardless of
the previous commands' statuses and the session's status is that of
its final (launch) command. -/
theorem c2_exit_code_contract (st : Option Nat) (ok : DStep → Bool)
    (env : Env) (hmd : HmdYml) (branch : String) (ec : String → Nat)
    (hpush : ok (DStep.inv (run_verbose_inv (git_push_cmd env))) = false) :
    (exec_verbose st = Except.ok () ↔ st = some 0) ∧
    deploy ok env hmd branch =
      ([DStep.inv (run_verbose_inv (git_push_cmd env))],
        Except.error (stepErr (DStep.inv (run_verbose_inv (git_push_cmd env))))) ∧
    (runSeq ec (run_pipeline_args env branch)).1 = run_pipeline_args env branch ∧
    (runSeq ec (run_pipeline_args env branch)).2 = ec launch_arg ∧
    (runSeq ec (restart_pipeline_args env)).1 = restart_pipeline_args env ∧
    (runSeq ec (restart_pipeline_args env)).2 = ec launch_arg := by
  refine ⟨?_, ?_, rfl, rfl, rfl, rfl⟩
  · cases st with
    | none => simp [exec_verbose]
    | some code =>
      by_cases h : code = 0 <;> simp [exec_verbose, h]
  · simp [deploy, hpush]

/-- Witness for C2 at the demo project with the push step failing. -/
theorem c2_exit_code_contract_witness :
    (exec_verbose (some 0) = Except.ok () ↔ (some 0 : Option Nat) = some 0) ∧
    deploy pushStepFails demoEnv fooYml "main" =
      ([DStep.inv (run_verbose_inv (git_push_cmd demoEnv))],
        Except.error (stepErr (DStep.inv (run_verbose_inv (git_push_cmd demoEnv))))) ∧
    (runSeq checkoutFails (run_pipeline_args demoEnv "main")).1 =
      run_pipeline_args demoEnv "main" ∧
    (runSeq checkoutFails (run_pipeline_args demoEnv "main")).2 =
      checkoutFails launch_arg ∧
    (runSeq checkoutFails (restart_pipeline_args demoEnv)).1 =
      restart_pipeline_args demoEnv ∧
    (runSeq checkoutFails (restart_pipeline_args demoEnv)).2 =
      checkoutFails launch_arg :=
  c2_exit_code_contract (some 0) pushStepFails demoEnv fooYml "main" checkoutFails
    (by decide)

/-! ### C4 — project resolution -/

/-- C4 counterexample: a present, loadable descriptor with project
`foo` and no explicit override: the claimed precedence yields `foo`
for the Remove action, but the code fails with the missing-project
error, because the Remove arm of `launch` consults only the explicit
option. -/
theorem c4_remove_counterexample :
    read_hmd_yml (some fooYml) = some fooYml ∧
    resolve_project Action.remove none (some fooYml) none =
      Except.error HmdErr.missingProject ∧
    resolve_project_spec Action.remove none (some fooYml) none =
      Except.ok "foo" := by
  exact ⟨rfl, rfl, rfl⟩

/-- C4 (amended): the precedence — explicit override, then the project
field of a present and loadable descriptor, then (Init only) the
working-directory name, else a missing-project failure — holds for
Init, Stop, Restart, Status and Log; Remove accepts only the explicit
override and fails with the missing-project error otherwise, even
when a loadable descriptor is present. -/
theorem c4_project_resolution (p q : String) (file : Option HmdYml)
    (cwd : Option String) (y : HmdYml) :
    (∀ a : Action, resolve_project a (some p) file cwd = Except.ok p) ∧
    (read_hmd_yml file = some y →
      resolve_project Action.stop none file cwd = Except.ok y.project ∧
      resolve_project Action.restart none file cwd = Except.ok y.project ∧
      resolve_project Action.status none file cwd = Except.ok y.project ∧
      resolve_project Action.log none file cwd = Except.ok y.project ∧
      resolve_project Action.init none file cwd = Except.ok y.project) ∧
    (read_hmd_yml file = none →
      resolve_project Action.stop none file cwd = Except.error HmdErr.missingProject ∧
      resolve_project Action.restart none file cwd = Except.error HmdErr.missingProject ∧
      resolve_project Action.status none file cwd = Except.error HmdErr.missingProject ∧
      resolve_project Action.log none file cwd = Except.error HmdErr.missingProject ∧
      resolve_project Action.init none file (some q) = Except.ok q ∧
      resolve_project Action.init none file none = Except.error HmdErr.missingProject) ∧
    (resolve_project Action.remove none file cwd = Except.error HmdErr.missingProject) := by
  refine ⟨?_, ?_, ?_, ?_⟩
  · intro a
    cases a <;> simp [resolve_project, get_project]
  · intro h
    refine ⟨?_, ?_, ?_, ?_, ?_⟩ <;> simp [resolve_project, get_project, h]
  · intro h
    refine ⟨?_, ?_, ?_, ?_, ?_, ?_⟩ <;> simp [resolve_project, get_project, h]
  · simp [resolve_project]

/-- Witness for C4: the amended precedence applied to the loadable
`foo` descriptor for the Stop action. -/
theorem c4_project_resolution_witness :
    resolve_project Action.stop none (some fooYml) none = Except.ok fooYml.project :=
  ((c4_project_resolution "bar" "dir" (some fooYml) none fooYml).2.1 (by decide)).1

/-! ### C6 — status and log commands -/

/-- C6 counterexample: the Status and Log remote commands are plain
`tail` follows of the two logs; neither references the pid file (or
any `pid` at all), so neither is bounded to the lifetime of the
current pid. -/
theorem c6_tail_counterexample :
    status_arg demoEnv = "tail -f ~/.hmd/demo/work-tree/status.log" ∧
    log_arg demoEnv = "tail -n 50 -f ~/.hmd/demo/work-tree/out.log" ∧
    hasSub (status_arg demoEnv).toList demoEnv.pipeline_pid.toList = false ∧
    hasSub (status_arg demoEnv).toList "pid".toList = false ∧
    hasSub (log_arg demoEnv).toList "pid".toList = false := by
  decide

/-- C6 (amended): Status follows the status log with a plain
`tail -f` and Log follows the last 50 lines of the output log with
`tail -n 50 -f`; neither command is bounded to the pid's lifetime
(no reference to the pid file). -/
theorem c6_tail_follow (p s : String) :
    status_arg (Env.new p s) =
      "tail -f " ++ (HMD_ROOT ++ "/" ++ p ++ "/work-tree" ++ "/" ++ STATUS_LOG) ∧
    log_arg (Env.new p s) =
      "tail -n 50 -f " ++ (HMD_ROOT ++ "/" ++ p ++ "/work-tree" ++ "/" ++ OUT_LOG) ∧
    hasSub (status_arg (Env.new "demo" "me@host")).toList "pid".toList = false ∧
    hasSub (log_arg (Env.new "demo" "me@host")).toList "pid".toList = false := by
  exact ⟨rfl, rfl, by decide, by decide⟩

/-! ### C7 — restart -/

/-- C7: Restart issues exactly one remote invocation, an ssh session
whose argument list is the deploy session minus the checkout step
(index 3): profile, cd, kill-and-wait strictly before the launch, no
checkout and no upload; the launch truncates the output log with `>`
(no `>>` anywhere) and captures the new pid into the pid file. -/
theorem c7_restart (p s branch : String) :
    restart_pipeline_args (Env.new p s) =
      (run_pipeline_args (Env.new p s) branch).eraseIdx 3 ∧
    (run_pipeline_args (Env.new p s) branch).getD 3 "" =
      checkout_arg (Env.new p s) branch ∧
    restart_invocations (Env.new p s) =
      [ssh_invocation (Env.new p s) (restart_pipeline_args (Env.new p s))] ∧
    (restart_invocations (Env.new p s)).all
      (fun inv => inv.program == "ssh") = true ∧
    (restart_pipeline_args (Env.new p s)).getD 2 "" = kill_and_wait_cmd PIPELINE_PID ∧
    (restart_pipeline_args (Env.new p s)).getD 3 "" = launch_arg ∧
    hasSub launch_arg.toList (" > " ++ OUT_LOG).toList = true ∧
    hasSub launch_arg.toList ">>".toList = false ∧
    hasSub launch_arg.toList ("echo $! > " ++ PIPELINE_PID).toList = true := by
  exact ⟨rfl, rfl, rfl, rfl, rfl, rfl, by decide, by decide, by decide⟩

/-! ### C8 — remote layout -/

/-- C8: the remote layout is a pure total function of the project
name: for the demo project it yields exactly the specified git
directory, work tree and pid path (and the two log paths), and in
general each path is the root, the project segment and a fixed
suffix. -/
theorem c8_layout (project ssh : String) :
    (Env.new "demo" ssh).git_dir = "~/.hmd/demo/git" ∧
    (Env.new "demo" ssh).work_tree = "~/.hmd/demo/work-tree" ∧
    (Env.new "demo" ssh).pipeline_pid = "~/.hmd/demo/work-tree/pipeline.pid" ∧
    (Env.new "demo" ssh).out_log = "~/.hmd/demo/work-tree/out.log" ∧
    (Env.new "demo" ssh).status_log = "~/.hmd/demo/work-tree/status.log" ∧
    (Env.new project ssh).project_dir = HMD_ROOT ++ "/" ++ project ∧
    (Env.new project ssh).git_dir = HMD_ROOT ++ "/" ++ project ++ "/git" ∧
    (Env.new project ssh).work_tree = HMD_ROOT ++ "/" ++ project ++ "/work-tree" ∧
    (Env.new project ssh).pipeline_pid =
      HMD_ROOT ++ "/" ++ project ++ "/work-tree" ++ "/" ++ PIPELINE_PID := by
  refine ⟨?_, ?_, ?_, ?_, ?_, rfl, rfl, rfl, rfl⟩ <;>
    simp [Env.new, Env.out_log, Env.status_log, Env.pipeline_pid,
      HMD_ROOT, OUT_LOG, STATUS_LOG, PIPELINE_PID]

/-! ### C9 — descriptor rewrite -/

/-- C9: rewriting the descriptor over a loadable file changes only the
project and address fields, keeping stages and artifacts; with no
loadable file it writes the default descriptor whose stage list is
lint, test, build, run in that order with no artifacts. -/
theorem c9_write_descriptor (p s : String) (y : HmdYml) (file : Option HmdYml)
    (hy : read_hmd_yml (some y) = some y) (hnone : read_hmd_yml file = none) :
    (write_hmd_yml p s (some y)).project = p ∧
    (write_hmd_yml p s (some y)).ssh_address = s ∧
    (write_hmd_yml p s (some y)).stages = y.stages ∧
    (write_hmd_yml p s (some y)).artifacts = y.artifacts ∧
    (write_hmd_yml p s file).project = p ∧
    (write_hmd_yml p s file).ssh_address = s ∧
    (write_hmd_yml p s file).stages =
      [("lint", "cargo clippy"), ("test", "cargo test"),
       ("build", "cargo build --release"), ("run", "cargo run --release")] ∧
    (write_hmd_yml p s file).artifacts = [] := by
  refine ⟨?_, ?_, ?_, ?_, ?_, ?_, ?_, ?_⟩ <;>
    simp [write_hmd_yml, hy, hnone, HmdYml.default]

/-- Witness for C9: the loadable `foo` descriptor and a missing file. -/
theorem c9_write_descriptor_witness :
    (write_hmd_yml "demo" "me@host" (some fooYml)).project = "demo" ∧
    (write_hmd_yml "demo" "me@host" (some fooYml)).ssh_address = "me@host" ∧
    (write_hmd_yml "demo" "me@host" (some fooYml)).stages = fooYml.stages ∧
    (write_hmd_yml "demo" "me@host" (some fooYml)).artifacts = fooYml.artifacts ∧
    (write_hmd_yml "demo" "me@host" none).project = "demo" ∧
    (write_hmd_yml "demo" "me@host" none).ssh_address = "me@host" ∧
    (write_hmd_yml "demo" "me@host" none).stages =
      [("lint", "cargo clippy"), ("test", "cargo test"),
       ("build", "cargo build --release"), ("run", "cargo run --release")] ∧
    (write_hmd_yml "demo" "me@host" none).artifacts = [] :=
  c9_write_descriptor "demo" "me@host" fooYml none (by decide) rfl

end Hmd
